import Mathlib

/-!
Verification of the verdon Avro RPC runtime against its specification.

The definitions below are a shallow embedding of the repository code:

* `lib/tracing.js` (newer revision): the `Trace` / `Call` record types, the
  `createTrace` constructor, and the client and server tracing middleware
  (`clientTracing`, `serverTracing`).
* `lib/utils.js`: the promise settlement logic of `promisifyClient`.
* `lib/proxy.js`: the binding map (`bindServer` / `bindClientProvider`), the
  scoped-binding resolution, the POST request handler dispatch, and the
  `parseBody` / avro-json reply construction.

Timestamps are modelled as natural numbers (milliseconds); Avro payload
values are modelled abstractly as natural numbers; byte buffers carrying a
serialized `Trace` are modelled by the `Trace` value they decode to (the
Avro codec is an external collaborator of the repository, assumed to round
trip), with a missing buffer modelled as `none`.
-/

namespace Verdon

/-- States of a trace call, from the `CallState` enum of the Trace schema in
`lib/tracing.js`: `PENDING`, `ERROR`, `SUCCESS`, `ONE_WAY`. -/
inductive CallState where
  | PENDING
  | ERROR
  | SUCCESS
  | ONE_WAY
deriving DecidableEq, Repr

/-- A `Call` record of the Trace schema: name, state, request time, optional
response time, and recursively nested downstream calls. -/
inductive TraceCall where
  | mk (name : String) (state : CallState) (requestTime : Nat)
      (responseTime : Option Nat) (downstreamCalls : List TraceCall)

/-- Field accessor: the call name. -/
def TraceCall.name : TraceCall → String
  | .mk n _ _ _ _ => n

/-- Field accessor: the call state. -/
def TraceCall.state : TraceCall → CallState
  | .mk _ s _ _ _ => s

/-- Field accessor: the request timestamp. -/
def TraceCall.requestTime : TraceCall → Nat
  | .mk _ _ t _ _ => t

/-- Field accessor: the response timestamp (`none` models Avro `null` and a
JavaScript field that was never assigned). -/
def TraceCall.responseTime : TraceCall → Option Nat
  | .mk _ _ _ t _ => t

/-- Field accessor: the downstream calls array. -/
def TraceCall.downstreamCalls : TraceCall → List TraceCall
  | .mk _ _ _ _ d => d

/-- Functional update of the `responseTime` field. -/
def TraceCall.withResponseTime : TraceCall → Option Nat → TraceCall
  | .mk n s rq _ d, t => .mk n s rq t d

/-- Functional update of the `state` field. -/
def TraceCall.withState : TraceCall → CallState → TraceCall
  | .mk n _ rq rs d, s => .mk n s rq rs d

/-- Functional update of the `downstreamCalls` field. -/
def TraceCall.withDownstreamCalls : TraceCall → List TraceCall → TraceCall
  | .mk n s rq rs _, d => .mk n s rq rs d

/-- A `Trace` record: a 16-byte uuid (modelled as a list of bytes) and an
array of calls. -/
structure Trace where
  uuid : List Nat
  calls : List TraceCall

/-- The `createTrace` function of `lib/tracing.js`: allocates a 16-byte
buffer, fills it with random bytes (`uuid.v4(null, buf)`, modelled by the
byte source `rnd`), and returns a trace with that uuid and the schema
default `calls = []`. -/
def createTrace (rnd : Nat → Nat) : Trace :=
  { uuid := (List.range 16).map (fun i => rnd i % 256), calls := [] }

/-- Options of the client tracing middleware (`clientTracing` in
`lib/tracing.js`): both flags default to `false`. -/
structure ClientTracingOpts where
  createMissingOutgoing : Bool := false
  ignoreMissingIncoming : Bool := false

/-- Outcome of the forward phase of the client tracing middleware:
either the call is failed via `next(err)` (no call record is appended to
any trace), or it proceeds, carrying the updated local trace, the trace
value serialized into `wreq.headers[traceKey]`, and whether a reverse
callback was registered with `next`. -/
inductive ClientFwdOutcome where
  | fail (msg : String)
  | proceed (trace : Trace) (header : Trace) (registersReverse : Bool)


/-- Shared tail of the client forward phase, for a resolved trace `t`:
builds the new call record `{name, state = oneWay ? ONE_WAY : PENDING,
requestTime = now}` (its `responseTime` and `downstreamCalls` fields are
unassigned, i.e. `none` and `[]`), pushes it onto `t.calls`, sets the
outgoing header to `{uuid: t.uuid}` (whose `calls` field Avro fills with
the schema default `[]`), and registers a reverse callback exactly for
two-way messages. -/
def clientForwardWith (msgName : String) (oneWay : Bool) (now : Nat)
    (t : Trace) : ClientFwdOutcome :=
  let call := TraceCall.mk msgName
    (if oneWay then CallState.ONE_WAY else CallState.PENDING) now none []
  ClientFwdOutcome.proceed { t with calls := t.calls ++ [call] }
    { uuid := t.uuid, calls := [] } (!oneWay)

/-- Forward phase of the client tracing middleware in `lib/tracing.js`:
reads the trace from the call locals; when absent, either creates a fresh
trace (`createMissingOutgoing`) or fails the call with
`missing outgoing trace`. -/
def clientForward (opts : ClientTracingOpts) (localsTrace : Option Trace)
    (msgName : String) (oneWay : Bool) (now : Nat) (rnd : Nat → Nat) :
    ClientFwdOutcome :=
  match localsTrace with
  | none =>
    if opts.createMissingOutgoing then
      clientForwardWith msgName oneWay now (createTrace rnd)
    else
      ClientFwdOutcome.fail "missing outgoing trace"
  | some t => clientForwardWith msgName oneWay now t

/-- An error value flowing through the reverse phase: either an error
already carried by the pipeline (`user`) or an exception raised while
decoding (`sys`). -/
inductive ErrLike where
  | user (id : Nat)
  | sys (msg : String)
deriving DecidableEq, Repr

/-- Decoding of the trace buffer found in `wres.headers[traceKey]`:
`TRACE_TYPE.fromBuffer(traceBuf)` throws when the buffer is missing
(`fromBuffer(undefined)` raises a `TypeError`); a buffer holding a
serialized trace decodes back to it. -/
def decodeTraceBuf : Option Trace → Except String (List TraceCall)
  | none => Except.error "cannot decode missing trace buffer"
  | some t => Except.ok t.calls

/-- How the reverse callback of the client tracing middleware terminates:
it either throws an exception synchronously, or invokes `prev` exactly once
with an optional error. -/
inductive ClientRevOutcome where
  | thrown (msg : String)
  | prevCalled (e : Option ErrLike)
deriving DecidableEq, Repr

/-- Reverse callback of the client tracing middleware in `lib/tracing.js`:
sets `call.responseTime = now`; when the incoming trace header is missing,
throws `missing incoming trace` unless `ignoreMissingIncoming` is set; then
decodes the header (which, for a missing buffer, throws and is caught,
invoking `prev(err || cause)` without further updates); on successful
decoding, sets `call.state` to `ERROR` when `err` or `wres.error` is
present and `SUCCESS` otherwise, sets `call.downstreamCalls`, and invokes
`prev(err)`. Returns the updated call record and the termination. -/
def clientReverse (opts : ClientTracingOpts) (call : TraceCall)
    (err : Option ErrLike) (wresError : Option Nat) (header : Option Trace)
    (now : Nat) : TraceCall × ClientRevOutcome :=
  let call1 := call.withResponseTime (some now)
  if header.isNone && !opts.ignoreMissingIncoming then
    (call1, ClientRevOutcome.thrown "missing incoming trace")
  else
    match decodeTraceBuf header with
    | Except.error cause =>
      (call1, ClientRevOutcome.prevCalled
        (some (match err with
          | some e => e
          | none => ErrLike.sys cause)))
    | Except.ok dcs =>
      let st := if err.isSome || wresError.isSome then CallState.ERROR
        else CallState.SUCCESS
      ((call1.withState st).withDownstreamCalls dcs,
        ClientRevOutcome.prevCalled err)

/-- Outcome of the forward phase of the server tracing middleware:
one-way calls (undefined `wres`) complete immediately; otherwise the call
either fails with `next(err)` or proceeds with the (possibly updated)
locals trace, always registering a reverse callback. -/
inductive ServerFwdOutcome where
  | oneWayPass
  | fail (msg : String)
  | proceed (localsTrace : Trace)


/-- Forward phase of the server tracing middleware in `lib/tracing.js`:
when `wres` is undefined (one-way message) it calls `next()` and returns
without touching the locals; otherwise, a trace header together with an
already-set locals trace fails the call with `duplicate trace`; a trace
header alone is decoded and stored in the locals; with neither present a
fresh trace is created and stored. -/
def serverForward (localsTrace : Option Trace) (header : Option Trace)
    (wresPresent : Bool) (rnd : Nat → Nat) : ServerFwdOutcome :=
  if !wresPresent then
    ServerFwdOutcome.oneWayPass
  else
    match header with
    | some h =>
      match localsTrace with
      | some _ => ServerFwdOutcome.fail "duplicate trace"
      | none => ServerFwdOutcome.proceed h
    | none =>
      match localsTrace with
      | some l => ServerFwdOutcome.proceed l
      | none => ServerFwdOutcome.proceed (createTrace rnd)

/-- A JavaScript error value handed to the emit callback in
`promisifyClient` (`lib/utils.js`): `plain` models an error object with no
`unwrapped` method; `unwrappable` models a wrapped-union error whose
`unwrapped()` call yields a cause whose Avro type name is recorded
alongside. -/
inductive ErrVal where
  | plain (id : Nat)
  | unwrappable (cause : ErrVal) (causeTypeName : String)
deriving DecidableEq, Repr

/-- How the promise returned by a promisified `emitMessage` settles. -/
inductive Settlement where
  | resolved (res : Nat)
  | rejected (e : ErrVal)
deriving DecidableEq, Repr

/-- Settlement logic of the callback installed by `promisifyClient` in
`lib/utils.js`: when `err` is neither `undefined` nor `null` (modelled by
`some`), the promise is rejected — after replacing `err` by
`err.unwrapped()` when that method exists and the cause is a declared
error variant (its constructor type name is `error`); otherwise the
promise is resolved with the response. -/
def emitSettle (err : Option ErrVal) (res : Nat) : Settlement :=
  match err with
  | none => Settlement.resolved res
  | some e =>
    Settlement.rejected
      (match e with
        | ErrVal.plain i => ErrVal.plain i
        | ErrVal.unwrappable cause tn =>
          if tn = "error" then cause else ErrVal.unwrappable cause tn)

/-- A proxy binding (`lib/proxy.js`): the objects stored in the bindings
map are `{server, scope}` or `{clientProvider, scope}`; servers and client
providers are modelled by abstract identifiers. -/
structure Binding where
  scope : String
  server : Option Nat := none
  clientProvider : Option Nat := none
deriving DecidableEq, Repr

/-- The state of an `HttpProxy`: its bindings map, modelled as an
association list with JavaScript `Map` semantics (insertion order, one
entry per key). -/
structure ProxyState where
  bindings : List (String × Binding)

/-- JavaScript `Map.set`: replaces the value of an existing key in place,
otherwise appends a new entry. -/
def mapSet (m : List (String × Binding)) (k : String) (v : Binding) :
    List (String × Binding) :=
  match m with
  | [] => [(k, v)]
  | (k0, v0) :: rest =>
    if k0 = k then (k, v) :: rest else (k0, v0) :: mapSet rest k v

/-- JavaScript `Map.get`: the value stored under a key, if any. -/
def mapGet (m : List (String × Binding)) (k : String) : Option Binding :=
  match m with
  | [] => none
  | (k0, v0) :: rest => if k0 = k then some v0 else mapGet rest k

/-- The `bindServer` method of `HttpProxy` (`lib/proxy.js`): stores
`{scope, server}` in the bindings map under `scope` (default the empty
string). -/
def bindServer (p : ProxyState) (server : Nat) (scope : String := "") :
    ProxyState :=
  { bindings :=
      mapSet p.bindings scope
        { scope := scope, server := some server, clientProvider := none } }

/-- The `bindClientProvider` method of `HttpProxy` (`lib/proxy.js`):
stores `{clientProvider, scope}` in the bindings map under `scope`. -/
def bindClientProvider (p : ProxyState) (clientProvider : Nat)
    (scope : String := "") : ProxyState :=
  { bindings :=
      mapSet p.bindings scope
        { scope := scope, server := none,
          clientProvider := some clientProvider } }

/-- The scopes requested by an HTTP request, from `_scopedBindings` in
`lib/proxy.js`: the `scopes` header is split on a comma and space when
present; a missing header requests the single default scope. -/
def requestedScopes (scopesHeader : Option String) : List String :=
  match scopesHeader with
  | some s => s.splitOn ", "
  | none => [""]

/-- Lookup of every requested scope in the bindings map, from
`_scopedBindings` in `lib/proxy.js`: returns `none` as soon as one scope
has no binding. -/
def lookupScopes (m : List (String × Binding)) : List String →
    Option (List Binding)
  | [] => some []
  | sc :: rest =>
    match mapGet m sc with
    | none => none
    | some b =>
      match lookupScopes m rest with
      | none => none
      | some bs => some (b :: bs)

/-- The `_scopedBindings` method of `HttpProxy` (`lib/proxy.js`). -/
def scopedBindings (p : ProxyState) (scopesHeader : Option String) :
    Option (List Binding) :=
  lookupScopes p.bindings (requestedScopes scopesHeader)

/-- The parsed JSON body of an avro/json POST request, as consumed by
`parseBody` in `lib/proxy.js`: `{message, headers?, request}` with payloads
abstract. -/
structure JreqShape where
  message : String
  request : Nat
  headersJson : Option Nat
deriving DecidableEq, Repr

/-- The `parseBody` helper of `lib/proxy.js`: a body that is not valid
JSON (modelled as `none`) fails with the JSON parse error; a body whose
`message` is not a message of the bound service fails with
`unknown message: <name>`; otherwise the parsed body is returned. -/
def parseBody (serviceMsgs : List String) (body : Option JreqShape) :
    Except String JreqShape :=
  match body with
  | none => Except.error "invalid JSON body"
  | some obj =>
    if serviceMsgs.contains obj.message then Except.ok obj
    else Except.error ("unknown message: " ++ obj.message)

/-- Whether the first of the scoped bindings carries a server
(`bindings[0].server` in `lib/proxy.js`; an empty list models the
undefined element and yields `false`). -/
def headHasServer (bs : List Binding) : Bool :=
  match bs with
  | [] => false
  | b :: _ => b.server.isSome

/-- The answer of the receiver (access) hook: `cb()` allows,
`cb(err)` denies with the error message. -/
inductive ReceiverAnswer where
  | allow
  | deny (msg : String)
deriving DecidableEq, Repr

/-- Synchronous outcome of the proxy POST handling: a plain-text HTTP
reply with a status code, the creation of one channel per scoped binding
(avro/binary mode), or the start of the avro/json bridge flow for a parsed
body. -/
inductive ProxyOutcome where
  | reply (status : Nat) (body : String)
  | channelsCreated (scopes : List String)
  | jsonStarted (jreq : JreqShape)
deriving DecidableEq, Repr

/-- Composition of `requestHandler` and `postRequestHandler` in
`lib/proxy.js`: requests with an unbound scope get HTTP 404; a receiver
denial gets HTTP 403 carrying the error message; then a non-POST method,
an avro/binary request whose bindings cannot take a function transport, an
avro/json request with invalid scopes or an unparseable body, and an
unknown content type all get HTTP 400 with the error message; accepted
avro/binary requests create channels and accepted avro/json requests start
the JSON bridge. -/
def handlePost (p : ProxyState) (scopesHeader : Option String)
    (recv : ReceiverAnswer) (method : String) (contentType : Option String)
    (serviceMsgs : List String) (body : Option JreqShape) : ProxyOutcome :=
  match scopedBindings p scopesHeader with
  | none => ProxyOutcome.reply 404 ""
  | some bs =>
    match recv with
    | ReceiverAnswer.deny m => ProxyOutcome.reply 403 m
    | ReceiverAnswer.allow =>
      if method ≠ "POST" then
        ProxyOutcome.reply 400 ("invalid method: " ++ method)
      else if contentType = some "avro/binary" then
        if bs.length > 1 || !headHasServer bs then
          ProxyOutcome.reply 400 "invalid scopes"
        else
          ProxyOutcome.channelsCreated (bs.map Binding.scope)
      else if contentType = some "avro/json" then
        if bs.length ≠ 1 || !headHasServer bs then
          ProxyOutcome.reply 400 "invalid scopes"
        else
          match parseBody serviceMsgs body with
          | Except.error e => ProxyOutcome.reply 400 e
          | Except.ok jreq => ProxyOutcome.jsonStarted jreq
      else
        ProxyOutcome.reply 400
          ("invalid content type: " ++
            (match contentType with
              | some ct => ct
              | none => "undefined"))

/-- Result of the ephemeral client call issued by the avro/json bridge:
the error seen by the locally installed middleware on the reverse phase
(`mwErr`), the error finally handed to the `emitMessage` callback
(`cbErr`, present when `err !== undefined`), the response value, and the
JSON form of the response headers (`none` when `wres` is undefined). -/
structure EmitResult where
  mwErr : Option Nat
  cbErr : Option Nat
  res : Nat
  wresHeadersJson : Option Nat
deriving DecidableEq, Repr

/-- The JSON reply body built by the avro/json bridge: `{headers, error}`
or `{headers, response}` (headers `none` models the initial empty
object). -/
inductive Jres where
  | withError (headersJson : Option Nat) (e : Nat)
  | withResponse (headersJson : Option Nat) (r : Nat)
deriving DecidableEq, Repr

/-- An HTTP reply of the avro/json bridge: either a plain-text error reply
or a JSON reply with its content type. -/
inductive PostJsonOutcome where
  | errorReply (status : Nat) (textBody : String)
  | jsonReply (status : Nat) (contentType : String) (body : Jres)
deriving DecidableEq, Repr

/-- The avro/json bridge of `postRequestHandler` (`lib/proxy.js`): a body
that `parseBody` rejects is answered with HTTP 400 and the error message;
otherwise the message is emitted through an ephemeral client whose local
middleware copies the response headers into the reply when its reverse
phase sees no error, and the callback writes `{headers, error}` when `err`
is defined and `{headers, response}` otherwise, with status 200 and
content type avro/json. -/
def postJson (serviceMsgs : List String) (body : Option JreqShape)
    (emit : EmitResult) : PostJsonOutcome :=
  match parseBody serviceMsgs body with
  | Except.error e => PostJsonOutcome.errorReply 400 e
  | Except.ok _ =>
    let hdrs := if emit.mwErr.isNone then emit.wresHeadersJson else none
    PostJsonOutcome.jsonReply 200 "avro/json"
      (match emit.cbErr with
        | some e => Jres.withError hdrs e
        | none => Jres.withResponse hdrs emit.res)

/-! Helper lemmas about the call record updates. -/

/-- Updating the state leaves the response time unchanged. -/
@[simp] theorem TraceCall.responseTime_withState (c : TraceCall)
    (s : CallState) : (c.withState s).responseTime = c.responseTime := by
  cases c; rfl

/-- Updating the downstream calls leaves the response time unchanged. -/
@[simp] theorem TraceCall.responseTime_withDownstreamCalls (c : TraceCall)
    (d : List TraceCall) :
    (c.withDownstreamCalls d).responseTime = c.responseTime := by
  cases c; rfl

/-- Updating the response time sets it. -/
@[simp] theorem TraceCall.responseTime_withResponseTime (c : TraceCall)
    (t : Option Nat) : (c.withResponseTime t).responseTime = t := by
  cases c; rfl

/-- Updating the response time leaves the state unchanged. -/
@[simp] theorem TraceCall.state_withResponseTime (c : TraceCall)
    (t : Option Nat) : (c.withResponseTime t).state = c.state := by
  cases c; rfl

/-- Updating the downstream calls leaves the state unchanged. -/
@[simp] theorem TraceCall.state_withDownstreamCalls (c : TraceCall)
    (d : List TraceCall) : (c.withDownstreamCalls d).state = c.state := by
  cases c; rfl

/-- Updating the state sets it. -/
@[simp] theorem TraceCall.state_withState (c : TraceCall) (s : CallState) :
    (c.withState s).state = s := by
  cases c; rfl

/-- A freshly created trace has a 16-byte uuid. -/
theorem createTrace_uuid_length (rnd : Nat → Nat) :
    (createTrace rnd).uuid.length = 16 := by
  simp [createTrace]

/-! Claim theorems. -/

/-- C1: for a two-way call emitted through a promisified client without a
callback, the returned promise settles exactly once per delivery of the
underlying callback (the settlement function is total and single-valued):
it resolves with the response exactly when the callback error is null or
undefined, rejects on every other error — unwrapping a wrapped error whose
cause is a declared error variant — and rejects errors without an
`unwrapped` method as they are. -/
theorem promisified_emit_settlement (err : Option ErrVal) (res : Nat) :
    (emitSettle err res = Settlement.resolved res ↔ err = none) ∧
    ((∃ e, emitSettle err res = Settlement.rejected e) ↔ err ≠ none) ∧
    (∀ c, err = some (ErrVal.unwrappable c "error") →
      emitSettle err res = Settlement.rejected c) ∧
    (∀ i, err = some (ErrVal.plain i) →
      emitSettle err res = Settlement.rejected (ErrVal.plain i)) := by
  refine ⟨?_, ?_, ?_, ?_⟩
  · constructor
    · intro h
      cases err with
      | none => rfl
      | some e => cases e <;> simp [emitSettle] at h
    · intro h; subst h; rfl
  · constructor
    · rintro ⟨e, he⟩ h
      subst h
      simp [emitSettle] at he
    · intro h
      cases err with
      | none => exact absurd rfl h
      | some e =>
        cases e with
        | plain i => exact ⟨ErrVal.plain i, rfl⟩
        | unwrappable c tn =>
          by_cases htn : tn = "error"
          · subst htn
            exact ⟨c, by simp [emitSettle]⟩
          · exact ⟨ErrVal.unwrappable c tn, by simp [emitSettle, htn]⟩
  · intro c h
    subst h
    simp [emitSettle]
  · intro i h
    subst h
    rfl

/-- Witness instantiating C1: a null error resolves with the response, a
wrapped declared error variant rejects with its unwrapped cause. -/
theorem promisified_emit_settlement_witness :
    emitSettle none 7 = Settlement.resolved 7 ∧
    emitSettle (some (ErrVal.unwrappable (ErrVal.plain 3) "error")) 7 =
      Settlement.rejected (ErrVal.plain 3) ∧
    emitSettle (some (ErrVal.plain 4)) 7 =
      Settlement.rejected (ErrVal.plain 4) :=
  ⟨(promisified_emit_settlement none 7).1.mpr rfl,
    (promisified_emit_settlement
      (some (ErrVal.unwrappable (ErrVal.plain 3) "error")) 7).2.2.1
      (ErrVal.plain 3) rfl,
    (promisified_emit_settlement (some (ErrVal.plain 4)) 7).2.2.2 4 rfl⟩

/-- C3: in the client tracing forward phase with no trace in the locals,
if `createMissingOutgoing` is set a fresh trace with a random 16-byte uuid
is created and used (the emitted call record is appended to it); otherwise
the call fails with `missing outgoing trace` and no call record is
appended to any trace. -/
theorem client_missing_outgoing_trace (opts : ClientTracingOpts)
    (msgName : String) (ow : Bool) (now : Nat) (rnd : Nat → Nat) :
    (opts.createMissingOutgoing = true →
      clientForward opts none msgName ow now rnd =
        ClientFwdOutcome.proceed
          { uuid := (createTrace rnd).uuid,
            calls := [TraceCall.mk msgName
              (if ow then CallState.ONE_WAY else CallState.PENDING)
              now none []] }
          { uuid := (createTrace rnd).uuid, calls := [] } (!ow) ∧
      (createTrace rnd).uuid.length = 16) ∧
    (opts.createMissingOutgoing = false →
      clientForward opts none msgName ow now rnd =
        ClientFwdOutcome.fail "missing outgoing trace") := by
  constructor
  · intro h
    refine ⟨?_, createTrace_uuid_length rnd⟩
    simp [clientForward, h, clientForwardWith, createTrace]
  · intro h
    simp [clientForward, h]

/-- Witness instantiating C3 in both branches. -/
theorem client_missing_outgoing_trace_witness :
    (clientForward { createMissingOutgoing := true } none "neg" false 3
        (fun _ => 0) =
      ClientFwdOutcome.proceed
        { uuid := (createTrace (fun _ => 0)).uuid,
          calls := [TraceCall.mk "neg" CallState.PENDING 3 none []] }
        { uuid := (createTrace (fun _ => 0)).uuid, calls := [] } true ∧
      (createTrace (fun _ => 0)).uuid.length = 16) ∧
    clientForward {} none "neg" false 3 (fun _ => 0) =
      ClientFwdOutcome.fail "missing outgoing trace" :=
  ⟨(client_missing_outgoing_trace { createMissingOutgoing := true }
      "neg" false 3 (fun _ => 0)).1 rfl,
    (client_missing_outgoing_trace {} "neg" false 3 (fun _ => 0)).2 rfl⟩

/-- C4: for every traced outgoing call the client tracing middleware sets
the trace header of the wrapped request to (the serialization of) a trace
whose uuid is the local trace uuid and whose calls array is empty, however
many call records the local trace already holds. -/
theorem client_outgoing_header_uuid_only (opts : ClientTracingOpts)
    (t : Trace) (msgName : String) (ow : Bool) (now : Nat)
    (rnd : Nat → Nat) :
    ∀ tr hdr reg,
      clientForward opts (some t) msgName ow now rnd =
        ClientFwdOutcome.proceed tr hdr reg →
      hdr.uuid = t.uuid ∧ hdr.calls = [] := by
  intro tr hdr reg h
  simp [clientForward, clientForwardWith] at h
  obtain ⟨-, h2, -⟩ := h
  subst h2
  exact ⟨rfl, rfl⟩

/-- Witness instantiating C4 at a local trace that already holds two call
records: the outgoing header still carries an empty calls array and the
local uuid. -/
theorem client_outgoing_header_uuid_only_witness :
    (Trace.mk [9] ([] : List TraceCall)).uuid =
      (Trace.mk [9]
        [TraceCall.mk "a" CallState.SUCCESS 1 (some 2) [],
          TraceCall.mk "b" CallState.PENDING 2 none []]).uuid ∧
    (Trace.mk [9] ([] : List TraceCall)).calls = [] :=
  client_outgoing_header_uuid_only {}
    (Trace.mk [9]
      [TraceCall.mk "a" CallState.SUCCESS 1 (some 2) [],
        TraceCall.mk "b" CallState.PENDING 2 none []])
    "neg" false 3 (fun _ => 0)
    (Trace.mk [9]
      [TraceCall.mk "a" CallState.SUCCESS 1 (some 2) [],
        TraceCall.mk "b" CallState.PENDING 2 none [],
        TraceCall.mk "neg" CallState.PENDING 3 none []])
    (Trace.mk [9] []) true rfl

/-- C5: whenever the client tracing forward phase proceeds, the call
record it appended (the new last element of the trace calls array) has
state `ONE_WAY` for one-way messages and `PENDING` for two-way messages,
and a reverse callback is registered exactly for two-way messages. -/
theorem client_forward_call_state_registration (opts : ClientTracingOpts)
    (lt : Option Trace) (msgName : String) (ow : Bool) (now : Nat)
    (rnd : Nat → Nat) :
    ∀ tr hdr reg,
      clientForward opts lt msgName ow now rnd =
        ClientFwdOutcome.proceed tr hdr reg →
      reg = !ow ∧
      tr.calls.getLast? = some (TraceCall.mk msgName
        (if ow then CallState.ONE_WAY else CallState.PENDING) now none []) := by
  intro tr hdr reg h
  have key : ∀ t : Trace,
      clientForwardWith msgName ow now t = ClientFwdOutcome.proceed tr hdr reg →
      reg = !ow ∧
      tr.calls.getLast? = some (TraceCall.mk msgName
        (if ow then CallState.ONE_WAY else CallState.PENDING) now none []) := by
    intro t ht
    simp [clientForwardWith] at ht
    obtain ⟨h1, -, h3⟩ := ht
    subst h1
    refine ⟨?_, by simp⟩
    cases ow <;> cases reg <;> simp_all
  cases lt with
  | some t => exact key t h
  | none =>
    by_cases hc : opts.createMissingOutgoing
    · exact key (createTrace rnd) (by simpa [clientForward, hc] using h)
    · simp [clientForward, hc] at h

/-- Witness instantiating C5 on a one-way call: state `ONE_WAY` and no
reverse callback. -/
theorem client_forward_call_state_registration_witness :
    false = !true ∧
    (Trace.mk [4]
        [TraceCall.mk "ping" CallState.ONE_WAY 2 none []]).calls.getLast? =
      some (TraceCall.mk "ping"
        (if true then CallState.ONE_WAY else CallState.PENDING) 2 none []) :=
  client_forward_call_state_registration {} (some (Trace.mk [4] []))
    "ping" true 2 (fun _ => 0)
    (Trace.mk [4] [TraceCall.mk "ping" CallState.ONE_WAY 2 none []])
    (Trace.mk [4] []) false rfl

/-- C2 counterexample: the reverse callback run on a response without an
incoming trace header assigns the response time but leaves the state
`PENDING`, so the produced call record violates the claimed invariant
that the response time is null exactly when the state is `PENDING`. -/
theorem client_responseTime_invariant_cex :
    ¬ (((clientReverse {} (TraceCall.mk "neg" CallState.PENDING 1 none [])
          none none none 5).1.responseTime = none) ↔
        ((clientReverse {} (TraceCall.mk "neg" CallState.PENDING 1 none [])
          none none none 5).1.state = CallState.PENDING)) := by
  decide

/-- C2 amended: a call record freshly appended by the forward phase has a
null response time and state `PENDING` (two-way) or `ONE_WAY` (one-way);
the reverse callback always assigns the response time, assigns state
`ERROR` or `SUCCESS` (by the error flags) when an incoming trace header is
present, and on its failure paths (missing incoming trace) leaves the
state unchanged even though the response time was assigned. -/
theorem client_responseTime_amended (opts : ClientTracingOpts)
    (lt : Option Trace) (msgName : String) (ow : Bool) (now : Nat)
    (rnd : Nat → Nat) (call : TraceCall) (err : Option ErrLike)
    (wresError : Option Nat) (header : Option Trace) (now2 : Nat) :
    (∀ tr hdr reg,
      clientForward opts lt msgName ow now rnd =
        ClientFwdOutcome.proceed tr hdr reg →
      tr.calls.getLast? = some (TraceCall.mk msgName
        (if ow then CallState.ONE_WAY else CallState.PENDING) now none []) ∧
      (tr.calls.getLast?.map TraceCall.responseTime) = some none) ∧
    ((clientReverse opts call err wresError header now2).1.responseTime =
      some now2) ∧
    (∀ t, header = some t →
      (clientReverse opts call err wresError header now2).1.state =
        (if err.isSome || wresError.isSome then CallState.ERROR
          else CallState.SUCCESS)) ∧
    (header = none →
      (clientReverse opts call err wresError header now2).1.state =
        call.state) := by
  refine ⟨?_, ?_, ?_, ?_⟩
  · intro tr hdr reg h
    have h2 := (client_forward_call_state_registration opts lt msgName ow
      now rnd tr hdr reg h).2
    exact ⟨h2, by rw [h2]; rfl⟩
  · cases header with
    | none =>
      by_cases hi : opts.ignoreMissingIncoming <;>
        simp [clientReverse, decodeTraceBuf, hi]
    | some t => simp [clientReverse, decodeTraceBuf]
  · intro t ht
    subst ht
    by_cases he : err.isSome || wresError.isSome <;>
      simp [clientReverse, decodeTraceBuf, he]
  · intro hn
    subst hn
    by_cases hi : opts.ignoreMissingIncoming <;>
      simp [clientReverse, decodeTraceBuf, hi]

/-- Witness instantiating C2 amended on a missing incoming trace header
with `ignoreMissingIncoming` unset: the response time is assigned while
the state stays that of the input call. -/
theorem client_responseTime_amended_witness :
    ((clientReverse {} (TraceCall.mk "neg" CallState.PENDING 1 none [])
        none none none 5).1.responseTime = some 5) ∧
    ((clientReverse {} (TraceCall.mk "neg" CallState.PENDING 1 none [])
        none none none 5).1.state =
      (TraceCall.mk "neg" CallState.PENDING 1 none []).state) ∧
    (Trace.mk [4]
        [TraceCall.mk "neg" CallState.PENDING 2 none []]).calls.getLast? =
      some (TraceCall.mk "neg"
        (if false then CallState.ONE_WAY else CallState.PENDING) 2 none []) :=
  ⟨(client_responseTime_amended {} (some (Trace.mk [4] [])) "neg" false 2
      (fun _ => 0) (TraceCall.mk "neg" CallState.PENDING 1 none [])
      none none none 5).2.1,
    (client_responseTime_amended {} (some (Trace.mk [4] [])) "neg" false 2
      (fun _ => 0) (TraceCall.mk "neg" CallState.PENDING 1 none [])
      none none none 5).2.2.2 rfl,
    ((client_responseTime_amended {} (some (Trace.mk [4] [])) "neg" false 2
      (fun _ => 0) (TraceCall.mk "neg" CallState.PENDING 1 none [])
      none none none 5).1
      (Trace.mk [4] [TraceCall.mk "neg" CallState.PENDING 2 none []])
      (Trace.mk [4] []) true rfl).1⟩

/-- C6 counterexample: a one-way invocation of the server tracing forward
phase (undefined wrapped response) with both a trace header and an
already-set locals trace does not fail with `duplicate trace`: it passes
straight through. -/
theorem server_duplicate_trace_cex :
    serverForward (some (Trace.mk [1] [])) (some (Trace.mk [2] [])) false
        (fun _ => 0) =
      ServerFwdOutcome.oneWayPass ∧
    ¬ (serverForward (some (Trace.mk [1] [])) (some (Trace.mk [2] [])) false
        (fun _ => 0) =
      ServerFwdOutcome.fail "duplicate trace") :=
  ⟨rfl, fun h => nomatch h⟩

/-- C6 amended: for two-way calls (defined wrapped response), the server
tracing forward phase fails with `duplicate trace` when a trace header
arrives while the locals already hold a trace, stores the decoded header
trace in the locals when they were empty, keeps the existing locals trace
when no header arrives, and creates a fresh trace when both are absent;
one-way calls complete the forward phase immediately, without failing and
without touching the locals. -/
theorem server_forward_trace_amended (lt header : Option Trace)
    (rnd : Nat → Nat) :
    (∀ t l, header = some t → lt = some l →
      serverForward lt header true rnd =
        ServerFwdOutcome.fail "duplicate trace") ∧
    (∀ t, header = some t → lt = none →
      serverForward lt header true rnd = ServerFwdOutcome.proceed t) ∧
    (∀ l, header = none → lt = some l →
      serverForward lt header true rnd = ServerFwdOutcome.proceed l) ∧
    (header = none → lt = none →
      serverForward lt header true rnd =
        ServerFwdOutcome.proceed (createTrace rnd)) ∧
    serverForward lt header false rnd = ServerFwdOutcome.oneWayPass := by
  refine ⟨?_, ?_, ?_, ?_, rfl⟩
  · intro t l ht hl
    subst ht; subst hl
    rfl
  · intro t ht hl
    subst ht; subst hl
    rfl
  · intro l ht hl
    subst ht; subst hl
    rfl
  · intro ht hl
    subst ht; subst hl
    rfl

/-- Witness instantiating C6 amended: on a two-way call, a header plus a
set locals trace fails with `duplicate trace`, and a header alone is
stored. -/
theorem server_forward_trace_amended_witness :
    serverForward (some (Trace.mk [1] [])) (some (Trace.mk [2] [])) true
        (fun _ => 0) =
      ServerFwdOutcome.fail "duplicate trace" ∧
    serverForward none (some (Trace.mk [2] [])) true (fun _ => 0) =
      ServerFwdOutcome.proceed (Trace.mk [2] []) :=
  ⟨(server_forward_trace_amended (some (Trace.mk [1] []))
      (some (Trace.mk [2] [])) (fun _ => 0)).1
      (Trace.mk [2] []) (Trace.mk [1] []) rfl rfl,
    (server_forward_trace_amended none (some (Trace.mk [2] []))
      (fun _ => 0)).2.1 (Trace.mk [2] []) rfl rfl⟩

/-- C7: evaluation of the client tracing reverse callback at the failing
input — `ignoreMissingIncoming` set, no incoming trace header, no pipeline
error. The option documentation promises that such responses are ignored
(incomplete downstream call arrays), but the code still decodes the
missing buffer, and the raised decode exception is passed to `prev`: the
call fails and the call record keeps state `PENDING` with untouched
downstream calls, instead of proceeding with empty downstream calls.
Without the option, the same input throws `missing incoming trace`, as
specified. -/
theorem client_ignore_missing_incoming_bug :
    clientReverse { ignoreMissingIncoming := true }
        (TraceCall.mk "neg" CallState.PENDING 1 none []) none none none 5 =
      (TraceCall.mk "neg" CallState.PENDING 1 (some 5) [],
        ClientRevOutcome.prevCalled
          (some (ErrLike.sys "cannot decode missing trace buffer"))) ∧
    clientReverse {} (TraceCall.mk "neg" CallState.PENDING 1 none [])
        none none none 5 =
      (TraceCall.mk "neg" CallState.PENDING 1 (some 5) [],
        ClientRevOutcome.thrown "missing incoming trace") :=
  ⟨rfl, rfl⟩

/-! Helper lemmas about the bindings map and scope resolution. -/

/-- Scope resolution fails as soon as one requested scope is unbound. -/
theorem lookupScopes_eq_none_of_missing (m : List (String × Binding)) :
    ∀ (l : List String) (sc : String), sc ∈ l → mapGet m sc = none →
      lookupScopes m l = none := by
  intro l
  induction l with
  | nil => intro sc h _; exact absurd h (List.not_mem_nil sc)
  | cons a l ih =>
    intro sc hmem hget
    rcases List.mem_cons.mp hmem with h | h
    · subst h
      simp [lookupScopes, hget]
    · cases hma : mapGet m a with
      | none => simp [lookupScopes, hma]
      | some b => simp [lookupScopes, hma, ih sc h hget]

/-- Storing under a key makes lookup of that key return the new value. -/
theorem mapGet_mapSet_self (m : List (String × Binding)) (k : String)
    (v : Binding) : mapGet (mapSet m k v) k = some v := by
  induction m with
  | nil => simp [mapSet, mapGet]
  | cons kv rest ih =>
    obtain ⟨k0, v0⟩ := kv
    by_cases h : k0 = k <;> simp [mapSet, mapGet, h, ih]

/-- Storing under an already-present key keeps the map size. -/
theorem length_mapSet_of_get_some (m : List (String × Binding))
    (k : String) (v : Binding) (h : ∃ w, mapGet m k = some w) :
    (mapSet m k v).length = m.length := by
  induction m with
  | nil => obtain ⟨w, hw⟩ := h; simp [mapGet] at hw
  | cons kv rest ih =>
    obtain ⟨k0, v0⟩ := kv
    by_cases hk : k0 = k
    · simp [mapSet, hk]
    · obtain ⟨w, hw⟩ := h
      simp [mapGet, hk] at hw
      simp [mapSet, hk, ih ⟨w, hw⟩]

/-- A key of the map after a store was a key before, or is the stored
key. -/
theorem mem_keys_mapSet (m : List (String × Binding)) (k : String)
    (v : Binding) (a : String) (h : a ∈ (mapSet m k v).map Prod.fst) :
    a ∈ m.map Prod.fst ∨ a = k := by
  induction m with
  | nil =>
    rw [show mapSet [] k v = [(k, v)] from rfl] at h
    simp only [List.map_cons, List.map_nil, List.mem_singleton] at h
    exact Or.inr h
  | cons kv rest ih =>
    obtain ⟨k0, v0⟩ := kv
    by_cases hk : k0 = k
    · rw [show mapSet ((k0, v0) :: rest) k v = (k, v) :: rest from by
        simp [mapSet, hk]] at h
      simp only [List.map_cons, List.mem_cons] at h
      rcases h with h | h
      · exact Or.inr h
      · exact Or.inl (by
          simp only [List.map_cons, List.mem_cons]
          exact Or.inr h)
    · rw [show mapSet ((k0, v0) :: rest) k v = (k0, v0) :: mapSet rest k v
        from by simp [mapSet, hk]] at h
      simp only [List.map_cons, List.mem_cons] at h
      rcases h with h | h
      · exact Or.inl (by
          simp only [List.map_cons, List.mem_cons]
          exact Or.inl h)
      · rcases ih h with h2 | h2
        · exact Or.inl (by
            simp only [List.map_cons, List.mem_cons]
            exact Or.inr h2)
        · exact Or.inr h2

/-- Storing preserves distinctness of the map keys. -/
theorem nodup_keys_mapSet (m : List (String × Binding)) (k : String)
    (v : Binding) (h : (m.map Prod.fst).Nodup) :
    ((mapSet m k v).map Prod.fst).Nodup := by
  induction m with
  | nil =>
    rw [show mapSet [] k v = [(k, v)] from rfl]
    simp
  | cons kv rest ih =>
    obtain ⟨k0, v0⟩ := kv
    simp only [List.map_cons, List.nodup_cons] at h
    obtain ⟨h1, h2⟩ := h
    by_cases hk : k0 = k
    · subst hk
      rw [show mapSet ((k0, v0) :: rest) k0 v = (k0, v) :: rest from by
        simp [mapSet]]
      simp only [List.map_cons, List.nodup_cons]
      exact ⟨h1, h2⟩
    · rw [show mapSet ((k0, v0) :: rest) k v = (k0, v0) :: mapSet rest k v
        from by simp [mapSet, hk]]
      simp only [List.map_cons, List.nodup_cons]
      refine ⟨?_, ih h2⟩
      intro hmem
      rcases mem_keys_mapSet rest k v k0 hmem with hh | hh
      · exact h1 hh
      · exact hk hh

/-- C8: through the POST request handler, a request whose requested scopes
include one with no binding is answered with HTTP 404; a request denied by
the receiver hook is answered with HTTP 403 carrying the error message;
and an accepted POST whose content type is neither avro/binary nor
avro/json is answered with HTTP 400. -/
theorem proxy_post_http_statuses (p : ProxyState) (sh : Option String)
    (recv : ReceiverAnswer) (method : String) (ct : Option String)
    (msgs : List String) (body : Option JreqShape) :
    ((∃ sc ∈ requestedScopes sh, mapGet p.bindings sc = none) →
      handlePost p sh recv method ct msgs body = ProxyOutcome.reply 404 "") ∧
    (∀ bs m, scopedBindings p sh = some bs →
      recv = ReceiverAnswer.deny m →
      handlePost p sh recv method ct msgs body = ProxyOutcome.reply 403 m) ∧
    (∀ bs, scopedBindings p sh = some bs → recv = ReceiverAnswer.allow →
      method = "POST" → ct ≠ some "avro/binary" → ct ≠ some "avro/json" →
      handlePost p sh recv method ct msgs body =
        ProxyOutcome.reply 400
          ("invalid content type: " ++
            (match ct with | some c => c | none => "undefined"))) := by
  refine ⟨?_, ?_, ?_⟩
  · rintro ⟨sc, hmem, hget⟩
    have hnone : scopedBindings p sh = none :=
      lookupScopes_eq_none_of_missing p.bindings (requestedScopes sh) sc
        hmem hget
    simp [handlePost, hnone]
  · intro bs m hsb hr
    subst hr
    simp [handlePost, hsb]
  · intro bs hsb hr hm hb hj
    subst hr; subst hm
    simp [handlePost, hsb, hb, hj]

/-- Witness instantiating C8 on a proxy with one server bound at the
default scope: an unbound scope gets 404, a receiver denial gets 403 with
its message, and an accepted POST with content type text/plain gets
400. -/
theorem proxy_post_http_statuses_witness :
    handlePost ⟨[("math", ⟨"math", some 1, none⟩)]⟩ none
        ReceiverAnswer.allow "POST" (some "avro/json") ["neg"] none =
      ProxyOutcome.reply 404 "" ∧
    handlePost ⟨[("", ⟨"", some 1, none⟩)]⟩ none
        (ReceiverAnswer.deny "nope") "POST" (some "avro/json") ["neg"] none =
      ProxyOutcome.reply 403 "nope" ∧
    handlePost ⟨[("", ⟨"", some 1, none⟩)]⟩ none
        ReceiverAnswer.allow "POST" (some "text/plain") ["neg"] none =
      ProxyOutcome.reply 400 "invalid content type: text/plain" :=
  ⟨(proxy_post_http_statuses ⟨[("math", ⟨"math", some 1, none⟩)]⟩ none
      ReceiverAnswer.allow "POST" (some "avro/json") ["neg"] none).1
      ⟨"", by decide, rfl⟩,
    (proxy_post_http_statuses ⟨[("", ⟨"", some 1, none⟩)]⟩ none
      (ReceiverAnswer.deny "nope") "POST" (some "avro/json") ["neg"] none).2.1
      [⟨"", some 1, none⟩] "nope" rfl rfl,
    (proxy_post_http_statuses ⟨[("", ⟨"", some 1, none⟩)]⟩ none
      ReceiverAnswer.allow "POST" (some "text/plain") ["neg"] none).2.2
      [⟨"", some 1, none⟩] rfl rfl rfl (by decide) (by decide)⟩

/-- C9: in the avro/json POST mode, a body naming a message absent from
the bound service is answered with HTTP 400 and a body starting with
`unknown message`; a body naming a known message is answered with HTTP 200
and content type avro/json, the JSON body holding the headers together
with the error when the call reports a declared error and the response
otherwise. -/
theorem proxy_avro_json_replies (msgs : List String)
    (body : Option JreqShape) (emit : EmitResult) :
    (∀ obj, body = some obj → obj.message ∉ msgs →
      postJson msgs body emit =
        PostJsonOutcome.errorReply 400 ("unknown message: " ++ obj.message) ∧
      ∃ rest, ("unknown message: " ++ obj.message) =
        "unknown message" ++ rest) ∧
    (∀ obj, body = some obj → obj.message ∈ msgs →
      ∃ hdrs,
        postJson msgs body emit = PostJsonOutcome.jsonReply 200 "avro/json"
          (match emit.cbErr with
            | some e => Jres.withError hdrs e
            | none => Jres.withResponse hdrs emit.res)) := by
  constructor
  · intro obj hb hmem
    subst hb
    refine ⟨by simp [postJson, parseBody, hmem], ⟨": " ++ obj.message, ?_⟩⟩
    have h1 : ("unknown message: " : String) = "unknown message" ++ ": " :=
      rfl
    rw [h1, String.append_assoc]
  · intro obj hb hmem
    subst hb
    refine ⟨if emit.mwErr.isNone then emit.wresHeadersJson else none, ?_⟩
    obtain ⟨mwErr, cbErr, res, wh⟩ := emit
    cases mwErr <;> cases cbErr <;> simp [postJson, parseBody, hmem]

/-- Witness instantiating C9: posting an unknown message `plus` against a
service exposing only `neg` yields 400 with an `unknown message` body;
posting `neg` yields a 200 avro/json reply carrying the response. -/
theorem proxy_avro_json_replies_witness :
    (postJson ["neg"] (some ⟨"plus", 0, none⟩) ⟨none, none, 5, some 9⟩ =
      PostJsonOutcome.errorReply 400 "unknown message: plus" ∧
      ∃ rest, ("unknown message: " ++ "plus") = "unknown message" ++ rest) ∧
    ∃ hdrs,
      postJson ["neg"] (some ⟨"neg", 0, none⟩) ⟨none, none, 5, some 9⟩ =
        PostJsonOutcome.jsonReply 200 "avro/json"
          (Jres.withResponse hdrs 5) := by
  constructor
  · have h := (proxy_avro_json_replies ["neg"] (some ⟨"plus", 0, none⟩)
      ⟨none, none, 5, some 9⟩).1 ⟨"plus", 0, none⟩ rfl (by decide)
    exact ⟨h.1, h.2⟩
  · exact (proxy_avro_json_replies ["neg"] (some ⟨"neg", 0, none⟩)
      ⟨none, none, 5, some 9⟩).2 ⟨"neg", 0, none⟩ rfl (by decide)

/-- C10: the proxy stores bindings in a map keyed by scope, so at any time
at most one binding exists per scope (distinct keys are preserved), and
binding a second server — or a client provider — at an already-bound scope
silently replaces the earlier binding: the later binding is returned by
lookup and the map does not grow. -/
theorem proxy_binding_replacement (p : ProxyState) (s1 s2 cp : Nat)
    (sc : String) :
    mapGet (bindServer (bindServer p s1 sc) s2 sc).bindings sc =
      some ⟨sc, some s2, none⟩ ∧
    mapGet (bindClientProvider (bindServer p s1 sc) cp sc).bindings sc =
      some ⟨sc, none, some cp⟩ ∧
    (bindServer (bindServer p s1 sc) s2 sc).bindings.length =
      (bindServer p s1 sc).bindings.length ∧
    ((p.bindings.map Prod.fst).Nodup →
      ((bindServer (bindServer p s1 sc) s2 sc).bindings.map
        Prod.fst).Nodup) := by
  refine ⟨mapGet_mapSet_self _ _ _, mapGet_mapSet_self _ _ _, ?_, ?_⟩
  · exact length_mapSet_of_get_some _ _ _ ⟨_, mapGet_mapSet_self _ _ _⟩
  · intro h
    exact nodup_keys_mapSet _ _ _ (nodup_keys_mapSet _ _ _ h)

/-- Witness instantiating C10: rebinding scope `m` on a one-entry proxy
replaces the server, keeps a single entry, and keeps the keys distinct. -/
theorem proxy_binding_replacement_witness :
    mapGet (bindServer (bindServer ⟨[]⟩ 1 "m") 2 "m").bindings "m" =
      some ⟨"m", some 2, none⟩ ∧
    (bindServer (bindServer ⟨[]⟩ 1 "m") 2 "m").bindings.length =
      (bindServer ⟨[]⟩ 1 "m").bindings.length ∧
    ((bindServer (bindServer ⟨[]⟩ 1 "m") 2 "m").bindings.map
      Prod.fst).Nodup :=
  ⟨(proxy_binding_replacement ⟨[]⟩ 1 2 0 "m").1,
    (proxy_binding_replacement ⟨[]⟩ 1 2 0 "m").2.2.1,
    (proxy_binding_replacement ⟨[]⟩ 1 2 0 "m").2.2.2 (by simp)⟩

end Verdon
